import Mathlib

/-!
# Verification of the Alberti Protocol SDK commit engine

Shallow embedding of `src/index.js` (the eth-crypto based implementation
exported by the package): the JavaScript value model, `difficultyverify`,
the mining loop of `createCommit`, `verifyCommit`, `verifyObject` and
`checkdatastructure`, together with theorems settling the specification
claims.

The external crypto primitives (keccak256 hashing, ECDSA signing and
public-key recovery from `eth-crypto`) are opaque to the SDK (spec §1
treats them as an external Identity and Cipher Provider); they are
modelled as a parameter record `Crypto`.  JavaScript exceptions are
modelled with `Except Unit`: `Except.error ()` is a thrown `TypeError`.
`verifyCommit`'s `try`/`catch` block catches exceptions raised inside it,
while `verifyObject` — called before the `try` (src/index.js:220) —
propagates them to the caller.
-/

namespace Alberti

mutual

/-- A JavaScript value, restricted to the shapes the commit engine
manipulates: `undefined`, `null`, booleans, (integer) numbers, strings,
arrays and plain objects.  Arrays and object field lists are separate
mutual types so that all functions over them are structurally recursive
and reduce inside the kernel. -/
inductive JsValue where
  | vundefined
  | vnull
  | vbool (b : Bool)
  | vnum (n : Int)
  | vstr (s : String)
  | varr (elems : JsArr)
  | vobj (fields : JsObj)

/-- A JavaScript array: a list of values. -/
inductive JsArr where
  | anil
  | acons (hd : JsValue) (tl : JsArr)

/-- The own enumerable fields of a JavaScript object, in insertion order.
JS objects cannot carry two fields of the same name, so embedded objects
keep their keys distinct. -/
inductive JsObj where
  | onil
  | ocons (key : String) (val : JsValue) (tl : JsObj)

end

/-- Builds a `JsObj` from a list of key/value pairs. -/
def jsObjOfList : List (String × JsValue) → JsObj
  | [] => .onil
  | (k, v) :: rest => .ocons k v (jsObjOfList rest)

/-- Builds a `JsArr` from a list of values. -/
def jsArrOfList : List JsValue → JsArr
  | [] => .anil
  | v :: rest => .acons v (jsArrOfList rest)

/-- First field of the given name, as JS property lookup does. -/
def objFind? : JsObj → String → Option JsValue
  | .onil, _ => none
  | .ocons k v tl, key => if k == key then some v else objFind? tl key

/-- Field membership, as `hasOwnProperty` tests it on an object. -/
def objHas : JsObj → String → Bool
  | .onil, _ => false
  | .ocons k _ tl, key => k == key || objHas tl key

/-- The key list of an object, as `Object.keys` returns it. -/
def objKeys : JsObj → List String
  | .onil => []
  | .ocons k _ tl => k :: objKeys tl

/-- Array length. -/
def arrLength : JsArr → Nat
  | .anil => 0
  | .acons _ tl => arrLength tl + 1

/-- Indexed array read with a default, for JS `arr[i]`. -/
def arrGetD : JsArr → Nat → JsValue → JsValue
  | .anil, _, dflt => dflt
  | .acons v _, 0, _ => v
  | .acons _ tl, i + 1, dflt => arrGetD tl i dflt

mutual

/-- JS `ToString` as a template literal `${v}` renders a value: objects
render as "[object Object]" without looking at their fields; arrays join
their elements with commas. -/
def toJsString : JsValue → String
  | .vundefined => "undefined"
  | .vnull => "null"
  | .vbool b => cond b "true" "false"
  | .vnum n => toString n
  | .vstr s => s
  | .vobj _ => "[object Object]"
  | .varr xs => arrJoin xs
termination_by structural v => v

/-- `Array.prototype.toString`: elements joined with ",", with `null` and
`undefined` elements rendering as the empty string. -/
def arrJoin : JsArr → String
  | .anil => ""
  | .acons .vnull .anil => ""
  | .acons .vundefined .anil => ""
  | .acons v .anil => toJsString v
  | .acons .vnull tl => "," ++ arrJoin tl
  | .acons .vundefined tl => "," ++ arrJoin tl
  | .acons v tl => toJsString v ++ "," ++ arrJoin tl
termination_by structural a => a

end

/-- Property read `v[key]`, ES semantics: a `TypeError` on `null` and
`undefined`; `undefined` for a missing field; `length` and index reads on
arrays and strings; named reads on boxed numbers/booleans are `undefined`. -/
def getPropES (v : JsValue) (key : String) : Except Unit JsValue :=
  match v with
  | .vnull => .error ()
  | .vundefined => .error ()
  | .vobj fields =>
      match objFind? fields key with
      | some w => .ok w
      | none => .ok .vundefined
  | .varr xs =>
      if key == "length" then .ok (.vnum (arrLength xs))
      else
        match key.toNat? with
        | some i => .ok (arrGetD xs i .vundefined)
        | none => .ok .vundefined
  | .vstr s =>
      if key == "length" then .ok (.vnum s.length)
      else
        match key.toNat? with
        | some i =>
            match (s.data.drop i).head? with
            | some ch => .ok (.vstr ch.toString)
            | none => .ok .vundefined
        | none => .ok .vundefined
  | _ => .ok .vundefined

/-- `v.hasOwnProperty(key)`, ES semantics: throws on `null`/`undefined`,
field membership on objects, `length`/index ownership on arrays and
strings, `false` on other primitives. -/
def hasOwnES (v : JsValue) (key : String) : Except Unit Bool :=
  match v with
  | .vnull => .error ()
  | .vundefined => .error ()
  | .vobj fields => .ok (objHas fields key)
  | .varr xs =>
      .ok (key == "length" ||
        (match key.toNat? with
         | some i => decide (i < arrLength xs)
         | none => false))
  | .vstr s =>
      .ok (key == "length" ||
        (match key.toNat? with
         | some i => decide (i < s.length)
         | none => false))
  | _ => .ok false

/-- `Object.keys(v)`: throws on `null`/`undefined`; own enumerable keys of
an object; index strings for arrays and strings; empty for other
primitives. -/
def objKeysES (v : JsValue) : Except Unit (List String) :=
  match v with
  | .vnull => .error ()
  | .vundefined => .error ()
  | .vobj fields => .ok (objKeys fields)
  | .varr xs => .ok ((List.range (arrLength xs)).map (fun i => toString i))
  | .vstr s => .ok ((List.range s.length).map (fun i => toString i))
  | _ => .ok []

/-- The external eth-crypto primitives the SDK wraps (src/index.js:1,
spec §1): `keccak` is `EthCrypto.hash.keccak256` (returning a
"0x"-prefixed hex string on real inputs), `ethSign` is `EthCrypto.sign`
applied to an already-hashed message, `ethRecover` is
`EthCrypto.recoverPublicKey` with `none` modelling a throw on a malformed
signature, and `pubOf` is `EthCrypto.publicKeyByPrivateKey`. -/
structure Crypto where
  keccak : String → String
  ethSign : String → String → String
  ethRecover : String → String → Option String
  pubOf : String → String

/-- `hashMessage` (src/index.js:45-47). -/
def hashMessage (c : Crypto) (message : String) : String := c.keccak message

/-- `signMessage` (src/index.js:55-57): signs the keccak hash of the
message. -/
def signMessage (c : Crypto) (privateKey message : String) : String :=
  c.ethSign privateKey (hashMessage c message)

/-- `recoverPublicKey` (src/index.js:65-67): recovers from the keccak hash
of the message; `none` is a thrown recovery error. -/
def recoverPublicKey (c : Crypto) (signature message : String) : Option String :=
  c.ethRecover signature (hashMessage c message)

/-- Boolean prefix test on character lists: `listStartsWith pre s` is true
iff `pre` is a prefix of `s`. -/
def listStartsWith : List Char → List Char → Bool
  | [], _ => true
  | _ :: _, [] => false
  | p :: ps, ch :: cs => p == ch && listStartsWith ps cs

/-- JS `s.startsWith(pre)`. -/
def jsStartsWith (s pre : String) : Bool := listStartsWith pre.data s.data

/-- `"0".repeat(difficulty)`. -/
def zeroRun (difficulty : Nat) : String := String.mk (List.replicate difficulty '0')

/-- `difficultyverify` (src/index.js:36-38): the hash string starts with
`"0x"` followed by `difficulty` zero characters. -/
def difficultyverify (difficulty : Nat) (hash : String) : Bool :=
  jsStartsWith hash ("0x" ++ zeroRun difficulty)

/-- The mining `do`/`while` loop of `createCommit` (src/index.js:194-201):
increment the nonce, hash `` `${data}${commitAt}${nonce}` `` (here `base`
is the already-interpolated `` `${data}${commitAt}` `` part, constant
across iterations) and stop as soon as `difficultyverify` accepts.  The
source loop is unbounded (spec §5 calls this a known liveness risk);
`fuel` bounds the embedding, and `none` means the bound was reached
without finding a satisfying nonce.  The loop's second exit condition
`messageHash === undefined` is never true (`hashMessage` always returns a
string) and is dropped. -/
def mine (c : Crypto) (base : String) (difficulty : Nat) : Nat → Nat → Option (Nat × String)
  | 0, _ => none
  | fuel + 1, nonce =>
      let n := nonce + 1
      let messageHash := hashMessage c (base ++ toString n)
      if difficultyverify difficulty messageHash then some (n, messageHash)
      else mine c base difficulty fuel n

/-- The commit object literal `{ commitAt, data, publicKey, signature,
type, nonce }` built at src/index.js:206, in insertion order. -/
def mkCommitObj (commitAt : String) (data : JsValue) (publicKey signature ty : String)
    (nonce : Int) : JsValue :=
  .vobj (jsObjOfList
    [("commitAt", .vstr commitAt), ("data", data), ("publicKey", .vstr publicKey),
     ("signature", .vstr signature), ("type", .vstr ty), ("nonce", .vnum nonce)])

/-- `createCommit` (src/index.js:187-211).  `commitAt` (the
`new Date().toISOString()` timestamp) is a parameter of the embedding;
the template literal `` `${data}${commitAt}${nonce}` `` interpolates the
payload object via `toJsString`.  On success the commit carries the found
nonce, the signature of the mined digest and the derived public key. -/
def createCommit (c : Crypto) (commitAt : String) (fuel : Nat) (privateKey : String)
    (data : JsValue) (ty : String) (difficulty : Nat) : Option JsValue :=
  match mine c (toJsString data ++ commitAt) difficulty fuel 0 with
  | none => none
  | some (nonce, messageHash) =>
      some (mkCommitObj commitAt data (c.pubOf privateKey)
        (signMessage c privateKey messageHash) ty (Int.ofNat nonce))

/-- One character of `^[a-zA-Z0-9]*$`. -/
def isAlnum (ch : Char) : Bool :=
  (decide ('a' ≤ ch) && decide (ch ≤ 'z')) ||
  (decide ('A' ≤ ch) && decide (ch ≤ 'Z')) ||
  (decide ('0' ≤ ch) && decide (ch ≤ '9'))

/-- The per-hashtag callback passed to `forEach` at src/index.js:286-298.
`false` records that one of the callback's early `return false`
statements fired (non-string element, length over 32, or a character
outside `[a-zA-Z0-9]`); those returns only leave the callback, so
`checkdatastructure` discards this verdict.  The checks after the
`typeof` test run only on strings, so the callback itself never throws. -/
def hashtagCallback (element : JsValue) : Bool :=
  match element with
  | .vstr s =>
      if s.length > 32 then false
      else if (s.data.all isAlnum) = false then false
      else true
  | _ => false

/-- The verdicts of `hashtagCallback` over an array, which
`data.hashtags.forEach` computes and discards. -/
def hashtagVerdicts : JsArr → List Bool
  | .anil => []
  | .acons v tl => hashtagCallback v :: hashtagVerdicts tl

/-- `data.hashtags.forEach(...)` (src/index.js:286): on an array the
callback verdicts are computed and discarded (a `return` inside a
`forEach` callback does not abort the outer function); on any non-array
receiver `forEach` is not a function and a `TypeError` is thrown. -/
def forEachHashtags (tags : JsValue) : Except Unit Unit :=
  match tags with
  | .varr xs =>
      let _ := hashtagVerdicts xs
      .ok ()
  | _ => .error ()

/-- The `data.attachments.forEach` accumulation (src/index.js:300-316):
`allgood` latches to true when any element owns a `type` field; `allgoodx`
is toggled once for each owned `cid` field and once for each owned `url`
field, so it ends up as the parity of their total count.  An element that
is `null`/`undefined` makes `hasOwnProperty` throw inside the callback. -/
def attachFold : JsArr → Bool → Bool → Except Unit (Bool × Bool)
  | .anil, allgood, allgoodx => .ok (allgood, allgoodx)
  | .acons e rest, allgood, allgoodx => do
      let ht ← hasOwnES e "type"
      let hcid ← hasOwnES e "cid"
      let hurl ← hasOwnES e "url"
      attachFold rest (allgood || ht) (Bool.xor (Bool.xor allgoodx hcid) hurl)

/-- JS `x > 0` as applied to the `.length` reads at src/index.js:285,300:
true on a positive number, false on `undefined` (the read of a missing
`length` field), `null`, and the other shapes the engine reaches there. -/
def jsGtZero : JsValue → Bool
  | .vnum n => decide (0 < n)
  | _ => false

/-- `checkdatastructure` (src/index.js:277-368).  The condition at line
278 is `if ((type = "post"))`: an assignment whose value `"post"` is
truthy, so this branch is always taken no matter what `ty` is, every arm
inside it returns, and the `meta` (line 329) and `message` (line 359)
blocks are unreachable dead code; `ty` is therefore never inspected.  The
four `hasOwnProperty` calls on `data` short-circuit in the source, but
each throws exactly when `data` is `null`/`undefined`, i.e. all on the
same condition, so evaluating them in sequence is equivalent. -/
def checkdatastructure (data ty : JsValue) : Except Unit Bool := do
  let hp ← hasOwnES data "parent"
  let hc ← hasOwnES data "content"
  let hh ← hasOwnES data "hashtags"
  let ha ← hasOwnES data "attachments"
  if hp && hc && hh && ha then do
    let tags ← getPropES data "hashtags"
    let tagsLen ← getPropES tags "length"
    let _ ← (if jsGtZero tagsLen then forEachHashtags tags else .ok ())
    let atts ← getPropES data "attachments"
    let attsLen ← getPropES atts "length"
    if jsGtZero attsLen then
      match atts with
      | .varr xs =>
          match ← attachFold xs false false with
          | (allgood, allgoodx) =>
              if allgood = false || allgoodx = false then return false
              else return true
      | _ => .error ()
    else
      return true
  else
    return false

/-- `verifyObject` (src/index.js:247-268): six own keys, then
`checkdatastructure` on the `data`/`type` fields, then presence of the
six required names.  Any exception (e.g. from `Object.keys(null)` or from
`checkdatastructure` on a `null` `data` field) propagates to the caller.
The six `hasOwnProperty` calls short-circuit in the source but share the
one receiver, which at this point survived `Object.keys`, so none of them
can throw and sequential evaluation is equivalent. -/
def verifyObject (dataObject : JsValue) : Except Unit Bool := do
  let keys ← objKeysES dataObject
  if keys.length ≠ 6 then
    return false
  else do
    let dataV ← getPropES dataObject "data"
    let tyV ← getPropES dataObject "type"
    let cds ← checkdatastructure dataV tyV
    if cds = false then
      return false
    else do
      let h1 ← hasOwnES dataObject "commitAt"
      let h2 ← hasOwnES dataObject "data"
      let h3 ← hasOwnES dataObject "publicKey"
      let h4 ← hasOwnES dataObject "signature"
      let h5 ← hasOwnES dataObject "type"
      let h6 ← hasOwnES dataObject "nonce"
      return (h1 && h2 && h3 && h4 && h5 && h6)

/-- The digest input recomputed by `verifyCommit` (src/index.js:225):
`` `${commit.data}${commit.commitAt}${commit.nonce}` ``. -/
def commitHashString (dataV commitAtV nonceV : JsValue) : String :=
  toJsString dataV ++ toJsString commitAtV ++ toJsString nonceV

/-- The `try` block of `verifyCommit` (src/index.js:224-238): recompute
the digest, check the difficulty, recover the signer and compare it to
the commit's `publicKey` with `===` (a non-string `publicKey` field never
equals the recovered string).  A non-string `signature` or a failing
recovery is a throw, to be caught by the enclosing `catch`. -/
def verifyCommitTry (c : Crypto) (commit : JsValue) (difficulty : Nat) : Except Unit Bool := do
  let dataV ← getPropES commit "data"
  let commitAtV ← getPropES commit "commitAt"
  let nonceV ← getPropES commit "nonce"
  let hashedData := hashMessage c (commitHashString dataV commitAtV nonceV)
  if difficultyverify difficulty hashedData = false then
    return false
  else do
    let sigV ← getPropES commit "signature"
    let pkV ← getPropES commit "publicKey"
    match sigV with
    | .vstr sig =>
        match recoverPublicKey c sig hashedData with
        | some signer => return (match pkV with | .vstr pk => pk == signer | _ => false)
        | none => .error ()
    | _ => .error ()

/-- `verifyCommit` (src/index.js:219-239): `verifyObject` runs before the
`try`, so exceptions it raises escape `verifyCommit`; exceptions inside
the `try` block are caught and turned into `false`. -/
def verifyCommit (c : Crypto) (commit : JsValue) (difficulty : Nat) : Except Unit Bool :=
  match verifyObject commit with
  | .error e => .error e
  | .ok false => .ok false
  | .ok true =>
      match verifyCommitTry c commit difficulty with
      | .error _ => .ok false
      | .ok b => .ok b

end Alberti

namespace Alberti

/-! ## Concrete instantiations of the external crypto provider

The SDK treats the eth-crypto primitives as opaque (spec §1), so the
claims about the SDK's own logic are proved for every `Crypto`; the
concrete records below instantiate the theorems and drive the
counterexample evaluations.  `toyCrypto` hashes by prefixing "0x" (so
difficulty 0 accepts immediately, like any real keccak output) and signs
by concatenation, with recovery stripping the signature apart — enough to
exercise the signer-comparison path of `verifyCommit` end to end.
`wCrypto` instead maps exactly one input to a digest with a zero nibble,
to exercise a mining run that must discard nonces 1 and 2. -/

/-- Toy keccak: a "0x"-prefixed digest, injective on inputs. -/
def toyKeccak (s : String) : String := "0x" ++ s

/-- Toy signing over an already-hashed message: tag the hash with the key. -/
def toyEthSign (privateKey hash : String) : String := privateKey ++ "#" ++ hash

/-- Toy recovery: a signature `sk#hash` over `hash` recovers the public
key `P ++ sk` of its single-character private key; anything else fails
(the failure models the throw of `EthCrypto.recoverPublicKey`). -/
def toyEthRecover (signature hash : String) : Option String :=
  match signature.data with
  | sk :: '#' :: rest => if rest == hash.data then some ("P" ++ String.mk [sk]) else none
  | _ => none

/-- Toy public-key derivation matching `toyEthRecover`. -/
def toyPub (privateKey : String) : String := "P" ++ privateKey

/-- The toy provider used by the counterexample evaluations. -/
def toyCrypto : Crypto := ⟨toyKeccak, toyEthSign, toyEthRecover, toyPub⟩

/-- A provider whose digest satisfies difficulty 1 exactly on the mining
input with nonce 3 (base "ab"), for the minimal-nonce witness. -/
def wKeccak (s : String) : String := cond (s == "ab3") "0x0" "0xF"

/-- The provider for the mining witnesses. -/
def wCrypto : Crypto := ⟨wKeccak, toyEthSign, toyEthRecover, toyPub⟩

/-! ## Concrete payloads -/

/-- A `message` payload conforming to the spec §4.4 message schema:
`receiver` and `message` fields. -/
def msgPayload : JsValue :=
  .vobj (jsObjOfList [("receiver", .vstr "r"), ("message", .vstr "m")])

/-- A schema-valid `post` payload with content "a" and no hashtags or
attachments. -/
def postPayloadA : JsValue :=
  .vobj (jsObjOfList [("parent", .vnull), ("content", .vstr "a"),
    ("hashtags", .varr .anil), ("attachments", .varr .anil)])

/-- The same `post` payload with content "b" instead of "a". -/
def postPayloadB : JsValue :=
  .vobj (jsObjOfList [("parent", .vnull), ("content", .vstr "b"),
    ("hashtags", .varr .anil), ("attachments", .varr .anil)])

/-- A `post` payload whose single hashtag "bad tag!" violates the
`^[a-zA-Z0-9]*$` charset rule (space and exclamation mark). -/
def badTagPayload : JsValue :=
  .vobj (jsObjOfList [("parent", .vnull), ("content", .vstr "x"),
    ("hashtags", .varr (jsArrOfList [.vstr "bad tag!"])), ("attachments", .varr .anil)])

/-- A `post` payload whose single attachment is fully valid under the
spec's rule: `type` is "image" (in the enum) and both `cid` and `url` are
present. -/
def attPayloadFull : JsValue :=
  .vobj (jsObjOfList [("parent", .vnull), ("content", .vstr "x"),
    ("hashtags", .varr .anil),
    ("attachments", .varr (jsArrOfList [.vobj (jsObjOfList
      [("type", .vstr "image"), ("cid", .vstr "c"), ("url", .vstr "u")])]))])

/-- A `post` payload whose single attachment has the out-of-enum type
"bogus" (and a `cid`), invalid under the spec's rule. -/
def attPayloadBogus : JsValue :=
  .vobj (jsObjOfList [("parent", .vnull), ("content", .vstr "x"),
    ("hashtags", .varr .anil),
    ("attachments", .varr (jsArrOfList [.vobj (jsObjOfList
      [("type", .vstr "bogus"), ("cid", .vstr "c")])]))])

/-- A commit-shaped object whose six fields are present but whose `data`
field is `null`. -/
def nullDataCommit : JsValue :=
  .vobj (jsObjOfList
    [("commitAt", .vstr "t"), ("data", .vnull), ("publicKey", .vstr "p"),
     ("signature", .vstr "s"), ("type", .vstr "post"), ("nonce", .vnum 1)])

/-- An object with six fields that are not the six required ones: `data`
is missing and `extra` is present instead. -/
def wrongSixFieldsObj : JsValue :=
  .vobj (jsObjOfList
    [("commitAt", .vstr "t"), ("publicKey", .vstr "p"), ("signature", .vstr "s"),
     ("type", .vstr "post"), ("nonce", .vnum 1), ("extra", .vstr "x")])

/-- A well-formed commit object carrying one additional seventh field. -/
def sevenFieldsObj : JsValue :=
  .vobj (jsObjOfList
    [("commitAt", .vstr "t"), ("data", postPayloadA), ("publicKey", .vstr "Pk"),
     ("signature", .vstr "k#0x0x[object Object]t1"), ("type", .vstr "post"),
     ("nonce", .vnum 1), ("extra", .vstr "x")])

/-- A commit object missing the `nonce` field (five fields). -/
def fiveFieldsObj : JsValue :=
  .vobj (jsObjOfList
    [("commitAt", .vstr "t"), ("data", postPayloadA), ("publicKey", .vstr "Pk"),
     ("signature", .vstr "k#0x0x[object Object]t1"), ("type", .vstr "post")])

/-! ## Helper lemmas -/

/-- Dropping the last character of a prefix preserves the prefix test. -/
theorem listStartsWith_mono (p : List Char) (a : Char) :
    ∀ s, listStartsWith (p ++ [a]) s = true → listStartsWith p s = true := by
  induction p with
  | nil => intro s _; rfl
  | cons b t iht =>
      intro s hs
      cases s with
      | nil => simp [listStartsWith] at hs
      | cons c cs =>
          simp [listStartsWith] at hs ⊢
          exact ⟨hs.1, iht cs hs.2⟩

/-- Soundness and minimality of the mining loop: a successful run from
`start` yields the smallest satisfying nonce above `start`, together with
its digest. -/
theorem mine_spec (c : Crypto) (base : String) (d : Nat) :
    ∀ (fuel start n : Nat) (h : String), mine c base d fuel start = some (n, h) →
      start < n ∧ h = hashMessage c (base ++ toString n) ∧
      difficultyverify d h = true ∧
      ∀ m, start < m → m < n → difficultyverify d (hashMessage c (base ++ toString m)) = false := by
  intro fuel
  induction fuel with
  | zero =>
      intro start n h hm
      simp [mine] at hm
  | succ f ih =>
      intro start n h hm
      rw [mine] at hm
      cases hd : difficultyverify d (hashMessage c (base ++ toString (start + 1))) with
      | true =>
          simp only [hd, if_true, Option.some.injEq, Prod.mk.injEq] at hm
          obtain ⟨hn, hh⟩ := hm
          subst hn
          subst hh
          exact ⟨Nat.lt_succ_self start, rfl, hd, by intro m hm1 hm2; omega⟩
      | false =>
          simp only [hd] at hm
          simp at hm
          obtain ⟨h1, h2, h3, h4⟩ := ih (start + 1) n h hm
          refine ⟨by omega, h2, h3, ?_⟩
          intro m hm1 hm2
          rcases Nat.eq_or_lt_of_le (Nat.succ_le_of_lt hm1) with heq | hlt
          · rw [← heq]
            exact hd
          · exact h4 m hlt hm2

/-- On a "0x"-prefixed digest, `difficultyverify` tests exactly whether
the part after "0x" starts with the required run of zeros. -/
theorem difficultyverify_strip0x (d : Nat) (rest : String) :
    difficultyverify d ("0x" ++ rest) = jsStartsWith rest (zeroRun d) := rfl

/-- A digest satisfying difficulty `d + 1` also satisfies difficulty `d`. -/
theorem difficultyverify_mono (d : Nat) (h : String) :
    difficultyverify (d + 1) h = true → difficultyverify d h = true := by
  have key : ("0x" ++ zeroRun (d + 1)).data = ("0x" ++ zeroRun d).data ++ ['0'] := by
    simp only [String.data_append, zeroRun, List.replicate_succ', List.append_assoc]
  intro hh
  simp only [difficultyverify, jsStartsWith] at hh ⊢
  rw [key] at hh
  exact listStartsWith_mono (("0x" ++ zeroRun d).data) '0' h.data hh

/-- At difficulty 0 the mining loop accepts the very first nonce, 1,
whenever the digest carries keccak's "0x" prefix. -/
theorem mine_zero (c : Crypto) (base : String) (f : Nat)
    (hk : jsStartsWith (hashMessage c (base ++ toString 1)) "0x" = true) :
    mine c base 0 (f + 1) 0 = some (1, hashMessage c (base ++ toString 1)) := by
  rw [mine]
  have hz : difficultyverify 0 (hashMessage c (base ++ toString 1)) = true := hk
  simp [hz]

end Alberti

namespace Alberti

/-! ## Claim theorems -/

/-- C1: the round-trip claim `verifyCommit (createCommit sk payload ty d) d = true`
fails on the code for the types `meta` and `message`: at difficulty 0 the
commit created from the schema-valid message payload `{receiver, message}`
is rejected by `verifyCommit`, because `checkdatastructure` validates
every payload against the `post` rules (the assignment in
`if ((type = "post"))` at src/index.js:278) and the message payload lacks
the `parent`/`content`/`hashtags`/`attachments` fields. -/
theorem c1_roundtrip_false_for_message :
    createCommit toyCrypto "t" 1 "k" msgPayload "message" 0 =
      some (mkCommitObj "t" msgPayload "Pk" "k#0x0x[object Object]t1" "message" 1) ∧
    verifyCommit toyCrypto
      (mkCommitObj "t" msgPayload "Pk" "k#0x0x[object Object]t1" "message" 1) 0 =
      Except.ok false :=
  ⟨rfl, rfl⟩

/-- C2: tamper detection fails for the `data` field: the digest
interpolates the payload object as the constant string "[object Object]"
(src/index.js:225), so replacing the data of a valid mined commit by a
different post object (content "b" instead of "a") leaves `verifyCommit`
returning `true` at the same difficulty. -/
theorem c2_data_mutation_not_detected :
    createCommit toyCrypto "t" 1 "k" postPayloadA "post" 0 =
      some (mkCommitObj "t" postPayloadA "Pk" "k#0x0x[object Object]t1" "post" 1) ∧
    verifyCommit toyCrypto
      (mkCommitObj "t" postPayloadA "Pk" "k#0x0x[object Object]t1" "post" 1) 0 =
      Except.ok true ∧
    verifyCommit toyCrypto
      (mkCommitObj "t" postPayloadB "Pk" "k#0x0x[object Object]t1" "post" 1) 0 =
      Except.ok true ∧
    getPropES postPayloadA "content" = Except.ok (.vstr "a") ∧
    getPropES postPayloadB "content" = Except.ok (.vstr "b") ∧
    ("a" : String) ≠ "b" :=
  ⟨rfl, rfl, rfl, rfl, rfl, by decide⟩

/-- C3: `verifyCommit` is claimed never to raise, but `verifyObject` runs
before its `try` block (src/index.js:220), so a commit whose six fields
are present but whose `data` is `null` makes
`checkdatastructure(null, ...)` call `null.hasOwnProperty` and the
`TypeError` escapes `verifyCommit` instead of yielding `false`. -/
theorem c3_verifyCommit_raises_on_null_data :
    verifyCommit toyCrypto nullDataCommit 3 = Except.error () :=
  rfl

/-- C4: minimal-nonce mining, confirmed: when `createCommit` returns a
commit, its nonce is the one found by the mining loop started at 1, the
recomputed digest of that nonce satisfies the difficulty predicate, and
every earlier positive nonce fails it under the same serialized payload
and timestamp. -/
theorem c4_minimal_nonce (c : Crypto) (commitAt privateKey ty : String)
    (data : JsValue) (d fuel n m : Nat) (h : String) (cm : JsValue)
    (hc : createCommit c commitAt fuel privateKey data ty d = some cm)
    (hm : mine c (toJsString data ++ commitAt) d fuel 0 = some (n, h)) :
    cm = mkCommitObj commitAt data (c.pubOf privateKey)
        (signMessage c privateKey h) ty (Int.ofNat n) ∧
    1 ≤ n ∧
    h = hashMessage c ((toJsString data ++ commitAt) ++ toString n) ∧
    difficultyverify d h = true ∧
    (1 ≤ m → m < n →
      difficultyverify d (hashMessage c ((toJsString data ++ commitAt) ++ toString m)) = false) := by
  obtain ⟨h1, h2, h3, h4⟩ := mine_spec c (toJsString data ++ commitAt) d fuel 0 n h hm
  refine ⟨?_, h1, h2, h3, fun hm1 hm2 => h4 m hm1 hm2⟩
  simp only [createCommit, hm, Option.some.injEq] at hc
  exact hc.symm

/-- Witness for C4: under `wCrypto` the run at difficulty 1 from base
"ab" returns nonce 3 with digest "0x0", and nonce 2 fails the predicate. -/
theorem c4_minimal_nonce_witness :
    (mkCommitObj "b" (.vstr "a") (wCrypto.pubOf "k") (signMessage wCrypto "k" "0x0") "post"
        (Int.ofNat 3) =
      mkCommitObj "b" (.vstr "a") (wCrypto.pubOf "k") (signMessage wCrypto "k" "0x0") "post"
        (Int.ofNat 3)) ∧
    1 ≤ 3 ∧
    "0x0" = hashMessage wCrypto ((toJsString (.vstr "a") ++ "b") ++ toString 3) ∧
    difficultyverify 1 "0x0" = true ∧
    (1 ≤ 2 → 2 < 3 →
      difficultyverify 1 (hashMessage wCrypto ((toJsString (.vstr "a") ++ "b") ++ toString 2)) =
        false) :=
  c4_minimal_nonce wCrypto "b" "k" "post" (.vstr "a") 1 5 3 2 "0x0"
    (mkCommitObj "b" (.vstr "a") (wCrypto.pubOf "k") (signMessage wCrypto "k" "0x0") "post"
      (Int.ofNat 3)) rfl rfl

/-- C5: the difficulty predicate, confirmed over keccak-shaped digests
(strings of the form "0x" ++ hex): it holds iff the part after "0x"
starts with `difficulty` zero characters; difficulty 0 accepts every such
digest, and the mining loop then returns nonce 1 immediately; and a
digest satisfying difficulty `d + 1` satisfies difficulty `d`. -/
theorem c5_difficulty_predicate (d : Nat) (rest h2 : String) (c : Crypto) (base : String)
    (fuel : Nat) (hfuel : 0 < fuel)
    (hk : jsStartsWith (hashMessage c (base ++ toString 1)) "0x" = true) :
    (difficultyverify d ("0x" ++ rest) = true ↔ jsStartsWith rest (zeroRun d) = true) ∧
    difficultyverify 0 ("0x" ++ rest) = true ∧
    (difficultyverify (d + 1) h2 = true → difficultyverify d h2 = true) ∧
    mine c base 0 fuel 0 = some (1, hashMessage c (base ++ toString 1)) := by
  refine ⟨by rw [difficultyverify_strip0x], by rw [difficultyverify_strip0x]; rfl,
    difficultyverify_mono d h2, ?_⟩
  obtain ⟨f, rfl⟩ : ∃ f, fuel = f + 1 := ⟨fuel - 1, by omega⟩
  exact mine_zero c base f hk

/-- Witness for C5 at difficulty 2 on digest "0x00abc", monotonicity on
"0x000F", and an immediate difficulty-0 mining run under `wCrypto`. -/
theorem c5_difficulty_predicate_witness :
    (difficultyverify 2 ("0x" ++ "00abc") = true ↔ jsStartsWith "00abc" (zeroRun 2) = true) ∧
    difficultyverify 0 ("0x" ++ "00abc") = true ∧
    (difficultyverify 3 "0x000F" = true → difficultyverify 2 "0x000F" = true) ∧
    mine wCrypto "ab" 0 1 0 = some (1, hashMessage wCrypto ("ab" ++ toString 1)) :=
  c5_difficulty_predicate 2 "00abc" "0x000F" wCrypto "ab" 1 (by decide) rfl

/-- C6: the schema validator neither dispatches on the type tag nor stays
exception-free: a post-shaped payload under the unrecognized tag "bogus"
is accepted (claim says any unknown tag yields `false`), the schema-valid
message payload under its own tag "message" is rejected against the post
rules, and a `null` payload makes the validator throw. -/
theorem c6_validator_type_tag_ignored :
    checkdatastructure postPayloadA (.vstr "bogus") = Except.ok true ∧
    checkdatastructure msgPayload (.vstr "message") = Except.ok false ∧
    checkdatastructure .vnull (.vstr "post") = Except.error () :=
  ⟨rfl, rfl, rfl⟩

/-- C7: the hashtag rule does not reject the payload: the per-element
callback verdict is `false` for "bad tag!" (charset violation), yet
`checkdatastructure` accepts the whole payload because `forEach` discards
the callback's `return false` (src/index.js:286-298). -/
theorem c7_hashtag_violation_accepted :
    checkdatastructure badTagPayload (.vstr "post") = Except.ok true ∧
    hashtagCallback (.vstr "bad tag!") = false :=
  ⟨rfl, rfl⟩

/-- C8: the attachment rule diverges from the claim in both directions: a
payload whose single attachment is fully valid (`type` "image", both
`cid` and `url`) is rejected, because the `allgoodx` flag toggles once per
`cid` and once per `url` and ends `false` on an even count; a payload
whose single attachment has the out-of-enum type "bogus" (with a `cid`)
is accepted, because the value of `type` is never compared against
`{image, video, others}` (src/index.js:300-321). -/
theorem c8_attachment_rule_divergent :
    checkdatastructure attPayloadFull (.vstr "post") = Except.ok false ∧
    checkdatastructure attPayloadBogus (.vstr "post") = Except.ok true :=
  ⟨rfl, rfl⟩

/-- C9: the field-completeness check rejects a five-field and a
seven-field object with `false` before any proof-of-work or signature
work, but an object with six fields that are not the required six (no
`data`, an `extra` instead) does not return `false`: the `data` read is
`undefined` and `checkdatastructure` throws from outside `verifyCommit`'s
`try`, so the claim's "returns false" fails on that input. -/
theorem c9_field_check_raises_instead_of_false :
    verifyCommit toyCrypto fiveFieldsObj 3 = Except.ok false ∧
    verifyCommit toyCrypto sevenFieldsObj 3 = Except.ok false ∧
    verifyCommit toyCrypto wrongSixFieldsObj 3 = Except.error () :=
  ⟨rfl, rfl, rfl⟩

/-- C10: the digest hashed by `verifyCommit` renders the payload object
as "[object Object]", so two commits that differ only in the fields of
their (object) payloads produce the same hash string, the same digest,
the same proof-of-work verdict, and the same outcome of the whole
`try`-block check (difficulty plus signature recovery and comparison),
for every crypto provider, timestamp, nonce and difficulty. -/
theorem c10_digest_independent_of_payload_fields (c : Crypto) (f1 f2 : JsObj)
    (commitAt pk sig ty : String) (nonce : Int) (d : Nat) :
    commitHashString (.vobj f1) (.vstr commitAt) (.vnum nonce) =
      commitHashString (.vobj f2) (.vstr commitAt) (.vnum nonce) ∧
    hashMessage c (commitHashString (.vobj f1) (.vstr commitAt) (.vnum nonce)) =
      hashMessage c (commitHashString (.vobj f2) (.vstr commitAt) (.vnum nonce)) ∧
    difficultyverify d (hashMessage c (commitHashString (.vobj f1) (.vstr commitAt) (.vnum nonce))) =
      difficultyverify d (hashMessage c (commitHashString (.vobj f2) (.vstr commitAt) (.vnum nonce))) ∧
    verifyCommitTry c (mkCommitObj commitAt (.vobj f1) pk sig ty nonce) d =
      verifyCommitTry c (mkCommitObj commitAt (.vobj f2) pk sig ty nonce) d :=
  ⟨rfl, rfl, rfl, rfl⟩

end Alberti
